import Mathlib

/-!
# Formal model of `run.py` (e-ink status dashboard)

A shallow embedding of the aggregation, rendering and poll-loop logic of
`src/run.py`.  HTTP responses are modelled as explicit data (status code,
`stat` field, payload); the Python `while` pagination loop is modelled with
explicit fuel (`none` = the loop has not finished within `fuel` iterations);
Python `None` results are `Option.none`; Python's builtin `hash` is an
uninterpreted parameter `h : String → Int` applied to the model of the
concatenated `str(...)` representations that line 167 of `run.py` hashes.
Ratios are modelled as exact rationals; `round(x, 2)` is modelled as
round-half-to-even at two decimal places (CPython's documented behaviour).
-/

namespace RunPy

/-- One element of the `monitors` array of an UptimeRobot `getMonitors`
response, with the fields `run.py` reads: `friendly_name` and (for the
ratio query) `custom_uptime_ratio` (already converted by `float(...)`). -/
structure MonitorJson where
  friendly_name : String
  custom_uptime_ratio : ℚ
deriving DecidableEq

/-- An UptimeRobot `getMonitors` HTTP response: status code, the JSON `stat`
field, the `monitors` array and `pagination.total`. -/
structure UptimeResp where
  status : ℕ
  stat : String
  monitors : List MonitorJson
  total : ℕ
deriving DecidableEq

/-- One element of a Sentry issues response, with the fields `run.py` reads. -/
structure IssueJson where
  title : String
  culprit : String
  count : String
deriving DecidableEq

/-- A Sentry issues HTTP response. -/
structure SentryResp where
  status : ℕ
  issues : List IssueJson
deriving DecidableEq

/-- The dict `\x7b"title": ..., "culprit": ..., "count": ...\x7d` that
`get_sentry_events` builds for each issue (run.py lines 74-78). -/
structure SentryEvent where
  title : String
  culprit : String
  count : String
deriving DecidableEq

/-- Python `s.split(" ")`: split on the literal space character, keeping
empty fields (so `"".split(" ") == [""]` and `"a  b".split(" ") == ["a","","b"]`). -/
def splitSpace : List Char → List (List Char)
  | [] => [[]]
  | c :: cs =>
    if c = ' ' then [] :: splitSpace cs
    else
      match splitSpace cs with
      | [] => [[c]]
      | w :: ws => (c :: w) :: ws

/-- `monitor['friendly_name'].split(" ")[0]` (run.py line 54): the first
field when splitting on the literal space character. -/
def firstToken (s : String) : String := String.mk ((splitSpace s.data).headD [])

/-- `get_down_monitors` (run.py lines 23-32): on a 200/"ok" response the
`friendly_name`s of the returned monitors, otherwise `None`. -/
def get_down_monitors (r : UptimeResp) : Option (List String) :=
  if r.status = 200 ∧ r.stat = "ok" then some (r.monitors.map (·.friendly_name))
  else none

/-- One step of building the `ratios` dict of lists (run.py lines 53-58):
append the ratio to the entry of `serv_name` if present, else insert a new
entry (Python dicts keep insertion order, new keys go to the end). -/
def addRatio (acc : List (String × List ℚ)) (name : String) (r : ℚ) :
    List (String × List ℚ) :=
  match acc with
  | [] => [(name, [r])]
  | (k, rs) :: rest =>
    if k = name then (k, rs ++ [r]) :: rest else (k, rs) :: addRatio rest name r

/-- The `ratios` dict of lists after the first `for monitor in monitors`
loop of `get_service_ratios` (run.py lines 53-58). -/
def groupRatios (ms : List MonitorJson) : List (String × List ℚ) :=
  ms.foldl (fun acc m => addRatio acc (firstToken m.friendly_name) m.custom_uptime_ratio) []

/-- Round-half-to-even to an integer, CPython's rounding for `round`. -/
def roundHalfEven (x : ℚ) : ℤ :=
  let f := Int.floor x
  if x - f < 1 / 2 then f
  else if 1 / 2 < x - f then f + 1
  else if f % 2 = 0 then f else f + 1

/-- `round(x, 2)` (run.py line 61) modelled exactly on rationals. -/
def round2 (q : ℚ) : ℚ := (roundHalfEven (100 * q) : ℚ) / 100

/-- The second loop of `get_service_ratios` (run.py lines 59-61): replace
each entry's list by `round(sum(...) / len(...), 2)`.  (The `isinstance`
guard on line 60 is always true: every value of the dict is a list.) -/
def serviceRatios (ms : List MonitorJson) : List (String × ℚ) :=
  (groupRatios ms).map fun p => (p.1, round2 (p.2.sum / (p.2.length : ℚ)))

/-- The `while total > len(monitors)` pagination loop of `get_service_ratios`
(run.py lines 49-52), with fuel: each iteration requests the page at offset
`len(monitors)` and extends `monitors` only when the response is 200/"ok".
`none` means the loop was still running when the fuel ran out. -/
def paginate (pages : ℕ → UptimeResp) (total : ℕ) :
    ℕ → List MonitorJson → Option (List MonitorJson)
  | 0, acc => if total > acc.length then none else some acc
  | fuel + 1, acc =>
    if total > acc.length then
      if (pages acc.length).status = 200 ∧ (pages acc.length).stat = "ok" then
        paginate pages total fuel (acc ++ (pages acc.length).monitors)
      else paginate pages total fuel acc
    else some acc

/-- `get_service_ratios` (run.py lines 41-64) as a function of the responses
the UptimeRobot API returns for each `offset`.  Outer `none` = the
pagination loop did not finish within `fuel` iterations; `some none` = the
function returned `None` (first response not 200/"ok"). -/
def get_service_ratios (pages : ℕ → UptimeResp) (fuel : ℕ) :
    Option (Option (List (String × ℚ))) :=
  let res := pages 0
  if res.status = 200 ∧ res.stat = "ok" then
    match paginate pages res.total fuel res.monitors with
    | none => none
    | some monitors => some (some (serviceRatios monitors))
  else some none

/-- `get_sentry_events` (run.py lines 66-81): on a 200 response, the first 4
issues in response order, each mapped to its title, culprit and count;
otherwise `None`. -/
def get_sentry_events (r : SentryResp) : Option (List SentryEvent) :=
  if r.status = 200 then
    some ((r.issues.take 4).map fun e => ⟨e.title, e.culprit, e.count⟩)
  else none

/-- First-key lookup in an insertion-ordered association list (how reading
`ratios[name]` from the Python dict is modelled). -/
def lookupKey (t : String) : List (String × α) → Option α
  | [] => none
  | (k, v) :: rest => if k = t then some v else lookupKey t rest

/-! ## Python `str(...)` of the snapshot fields

Line 167 of `run.py` hashes `str(uptimes) + str(down) + str(frontend_events)
+ str(backend_events)`.  The functions below model those `str(...)`
renderings character by character: `None` prints as `None`, a dict as
`\x7b'k': v, ...\x7d`, a list as `['a', 'b']`, a string by `repr` (quoted,
with backslashes and quotes escaped; Python switches to double quotes when
the string holds a single quote and no double quote).  Floats produced by
`round(_, 2)` print as a decimal with the trailing zero of the fractional
part dropped (`99.0`, `99.5`, `98.33`); rationals outside that range cannot
arise from `round(_, 2)` and are rendered as `num/den` to keep the function
total. -/

/-- The decimal digits of `n`, most significant first. -/
def natChars (n : ℕ) : List Char :=
  if _h : n < 10 then [Nat.digitChar n]
  else natChars (n / 10) ++ [Nat.digitChar (n % 10)]
termination_by n
decreasing_by exact Nat.div_lt_self (by omega) (by omega)

/-- The fractional part `m/100` (with `m < 100`) as Python prints it after
`round(_, 2)`: one digit when the second is zero, two digits otherwise. -/
def fracChars (m : ℕ) : List Char :=
  if m % 10 = 0 then [Nat.digitChar (m / 10)]
  else [Nat.digitChar (m / 10), Nat.digitChar (m % 10)]

/-- Python `str` of a float that came out of `round(_, 2)`, modelled on ℚ. -/
def ratChars (q : ℚ) : List Char :=
  if (100 * q).den = 1 then
    let n : ℤ := (100 * q).num
    (if n < 0 then ['-'] else []) ++ natChars (n.natAbs / 100) ++ '.' :: fracChars (n.natAbs % 100)
  else
    (if q.num < 0 then ['-'] else []) ++ natChars q.num.natAbs ++ '/' :: natChars q.den

/-- `str(ratio)` as a `String` (used by the renderer for `str(ratio) + "%"`). -/
def pyFloatStr (q : ℚ) : String := String.mk (ratChars q)

/-- Escape one character and concatenate, as Python `repr` does inside the
quotes. -/
def escList (esc : Char → List Char) : List Char → List Char
  | [] => []
  | c :: cs => esc c ++ escList esc cs

/-- Escaping inside a single-quoted `repr`: backslash and single quote. -/
def escQ (c : Char) : List Char :=
  if c = '\\' then ['\\', '\\'] else if c = '\'' then ['\\', '\''] else [c]

/-- Escaping inside a double-quoted `repr`: backslash only (Python uses the
double-quoted form only when the string holds no double quote). -/
def escD (c : Char) : List Char :=
  if c = '\\' then ['\\', '\\'] else [c]

/-- Python `repr` of a string: single-quoted with `\\` and `\'` escaped,
double-quoted when the string holds a `'` and no `"`.  (Escapes of
non-printable characters are not modelled.) -/
def pyReprChars (s : List Char) : List Char :=
  if '\'' ∈ s ∧ '"' ∉ s then '"' :: (escList escD s ++ ['"'])
  else '\'' :: (escList escQ s ++ ['\''])

/-- `", "`-separated concatenation of the encodings of the elements. -/
def commaSepEnc (enc : α → List Char) : List α → List Char
  | [] => []
  | [a] => enc a
  | a :: l => enc a ++ ',' :: ' ' :: commaSepEnc enc l

/-- One `'key': value` entry of the uptimes dict. -/
def ratioPairEnc (p : String × ℚ) : List Char :=
  pyReprChars p.1.data ++ ':' :: ' ' :: ratChars p.2

/-- `str(uptimes)`: `None` or a Python dict literal. -/
def pyStrRatios : Option (List (String × ℚ)) → List Char
  | none => "None".data
  | some l => '\x7b' :: (commaSepEnc ratioPairEnc l ++ ['\x7d'])

/-- `str(down)`: `None` or a Python list-of-strings literal. -/
def pyStrStrList : Option (List String) → List Char
  | none => "None".data
  | some l => '[' :: (commaSepEnc (fun s => pyReprChars s.data) l ++ [']'])

/-- `str` of one event dict built by `get_sentry_events`. -/
def pyStrEvent (e : SentryEvent) : List Char :=
  '\x7b' :: ("'title': ".data ++ pyReprChars e.title.data ++
    ", 'culprit': ".data ++ pyReprChars e.culprit.data ++
    ", 'count': ".data ++ pyReprChars e.count.data ++ ['\x7d'])

/-- `str(events)`: `None` or a Python list-of-dicts literal. -/
def pyStrEvents : Option (List SentryEvent) → List Char
  | none => "None".data
  | some l => '[' :: (commaSepEnc pyStrEvent l ++ [']'])

/-- `str(uptimes) + str(down) + str(frontend_events) + str(backend_events)`,
the string `run.py` line 167 feeds to `hash`. -/
def serializeSnapshot (u : Option (List (String × ℚ))) (d : Option (List String))
    (f b : Option (List SentryEvent)) : String :=
  String.mk (pyStrRatios u ++ pyStrStrList d ++ pyStrEvents f ++ pyStrEvents b)

/-- `new_data = hash(str(uptimes) + str(down) + str(frontend_events) +
str(backend_events))` (run.py line 167), with Python's builtin `hash` an
uninterpreted parameter `h`. -/
def fingerprint (h : String → Int) (u : Option (List (String × ℚ)))
    (d : Option (List String)) (f b : Option (List SentryEvent)) : Int :=
  h (serializeSnapshot u d f b)

/-! ## The renderer (`display`, run.py lines 91-151)

The drawing calls are modelled as a list of draw operations; fonts are
named after the variables of `run.py` (`display_font` = `lg` at size 38,
`display_font_sm` = `sm`, `display_font_xs` = `xs`, `number_font` = `num`). -/

/-- The four fonts `display` loads. -/
inductive Font where
  | lg
  | sm
  | xs
  | num
deriving DecidableEq

/-- One PIL drawing call: `draw.text((x, y), s, font, ...)` or
`draw.line((x1, y1, x2, y2), width, ...)`. -/
inductive DrawOp where
  | text (x y : Int) (s : String) (f : Font)
  | line (x1 y1 x2 y2 : Int) (w : ℕ)
deriving DecidableEq

/-- The uptimes loop (run.py lines 105-110): name at `(10, y)`, then the
percentage at `(18, y+20)`, advancing `y` by 46 per service. -/
def uptimeLoop : List (String × ℚ) → Int → List DrawOp
  | [], _ => []
  | (serv, ratio) :: rest, y =>
    DrawOp.text 10 y serv Font.sm ::
      DrawOp.text 18 (y + 20) (pyFloatStr ratio ++ "%") Font.num :: uptimeLoop rest (y + 46)

/-- An events loop (run.py lines 129-133 and 139-143): `(count) title` then
the indented culprit, advancing `y` by 38 per event; returns the ops and the
final cursor. -/
def eventLoop : List SentryEvent → Int → Int → List DrawOp × Int
  | [], _, y => ([], y)
  | e :: rest, x, y =>
    let tail := eventLoop rest x (y + 38)
    (DrawOp.text x y ("(" ++ e.count ++ ") " ++ e.title) Font.xs ::
      DrawOp.text (x + 12) (y + 18) e.culprit Font.xs :: tail.1, tail.2)

/-- The drawing calls `display` makes (run.py lines 100-143), in order, for
a display of `w × h` pixels. -/
def drawOps (w h : Int) (uptimes : Option (List (String × ℚ))) (down : List String)
    (backend frontend : List SentryEvent) : List DrawOp :=
  let upOps := match uptimes with
    | none => []
    | some l => uptimeLoop l 50
  let part1 := DrawOp.text 5 0 "Uptime" Font.lg :: upOps ++
    [DrawOp.line 0 50 150 50 3, DrawOp.line 150 0 150 h 3]
  let downPart : List DrawOp × Int × Int :=
    if down.length > 0 then
      ([DrawOp.text 160 0 "!! Down Monitors !!" Font.lg,
        DrawOp.line 150 80 w 80 3,
        DrawOp.text 160 50 (String.intercalate ", " down) Font.sm], 160, 80)
    else ([], 160, 0)
  let x := downPart.2.1
  let y := downPart.2.2
  let beEvents := eventLoop backend x (y + 60)
  let y2 := beEvents.2
  let feEvents := eventLoop frontend x (y2 + 60)
  part1 ++ downPart.1 ++
    (DrawOp.text x y "Backend" Font.lg :: DrawOp.line (x - 10) (y + 50) w (y + 50) 3 ::
      beEvents.1) ++
    (DrawOp.text x y2 "Frontend" Font.lg :: DrawOp.line (x - 10) (y2 + 50) w (y2 + 50) 3 ::
      feEvents.1)

/-- What one call of `display` does.  `crashed` = a `TypeError` escaped (a
`None` argument hit `len(down)` or a `for` loop) — neither `except` clause
of `display` catches it, so it propagates to `main`'s `except Exception`.
`completed ops pushed` = the image was drawn and `epd.display(...)` was
invoked; `pushed` is false when the device raised `IOError`, which
`display` catches and only logs (run.py lines 146-147). -/
inductive DisplayOutcome where
  | crashed
  | completed (ops : List DrawOp) (pushed : Bool)

/-- `display(epd, uptimes, down, backend_events, frontend_events)` (run.py
lines 91-151).  `deviceFails` says whether `epd.display` raises `IOError`. -/
def display (w h : Int) (uptimes : Option (List (String × ℚ)))
    (down : Option (List String)) (backend frontend : Option (List SentryEvent))
    (deviceFails : Bool) : DisplayOutcome :=
  match down, backend, frontend with
  | some d, some be, some fe => .completed (drawOps w h uptimes d be fe) (!deviceFails)
  | _, _, _ => .crashed

/-! ## The poll loop body (`main`, run.py lines 160-178) -/

/-- The external world one cycle of the loop sees: the UptimeRobot response
for each ratio-page offset, the down-monitors response, the two Sentry
responses, and the display's dimensions. -/
structure CycleEnv where
  pages : ℕ → UptimeResp
  downResp : UptimeResp
  frontendResp : SentryResp
  backendResp : SentryResp
  epdW : Int
  epdH : Int

/-- The observable outcome of one iteration of `while True` in `main`. -/
structure CycleResult where
  /-- The four fields of the snapshot that was built. -/
  snapUptimes : Option (List (String × ℚ))
  snapDown : Option (List String)
  snapFrontend : Option (List SentryEvent)
  snapBackend : Option (List SentryEvent)
  /-- `new_data`, the fingerprint of this cycle's snapshot. -/
  fingerprintVal : Int
  /-- Whether the `display(...)` call on line 170 ran. -/
  displayCalled : Bool
  /-- Whether `epd.display(...)` (the Display Driver) was invoked. -/
  driverDisplayInvoked : Bool
  /-- Whether a frame actually reached the device. -/
  framePushed : Bool
  /-- `old_data` after the iteration. -/
  oldData : Int
  /-- Seconds slept: 30 on the normal path, 60 in `except Exception`. -/
  sleepSecs : ℕ
  /-- Whether the iteration ended in `except Exception` (line 176). -/
  aborted : Bool
deriving DecidableEq

/-- One iteration of `main`'s loop (run.py lines 160-178) from
`old_data = old`: fetch the four data sources, hash their `str(...)`
concatenation, render when the hash changed, update `old_data` and sleep —
with `except Exception` turning an escaped `TypeError` into a 60-second
backoff that skips the `old_data` update.  `none` = the pagination loop
inside `get_service_ratios` was still running after `fuel` iterations. -/
def mainCycle (h : String → Int) (fuel : ℕ) (env : CycleEnv) (deviceFails : Bool)
    (old : Int) : Option CycleResult :=
  match get_service_ratios env.pages fuel with
  | none => none
  | some uptimes =>
    let down := get_down_monitors env.downResp
    let frontend := get_sentry_events env.frontendResp
    let backend := get_sentry_events env.backendResp
    let newData := fingerprint h uptimes down frontend backend
    if newData ≠ old then
      match display env.epdW env.epdH uptimes down backend frontend deviceFails with
      | .crashed =>
        some ⟨uptimes, down, frontend, backend, newData, true, false, false, old, 60, true⟩
      | .completed _ pushed =>
        some ⟨uptimes, down, frontend, backend, newData, true, true, pushed, newData, 30, false⟩
    else
      some ⟨uptimes, down, frontend, backend, newData, false, false, false, newData, 30, false⟩

/-! ## Decoders for the `str(...)` renderings

Verification apparatus, not part of the program model: each decoder is a
left inverse of the corresponding printer above, which gives injectivity of
the printers (needed to reason about fingerprint collisions). -/

/-- Decode the escaped body of a quoted string up to the closing quote `q`;
returns the decoded characters and the remaining input after the quote. -/
def unesc (q : Char) : List Char → Option (List Char × List Char)
  | [] => none
  | c :: cs =>
    if c = q then some ([], cs)
    else if c = '\\' then
      match cs with
      | [] => none
      | e :: cs' =>
        match unesc q cs' with
        | none => none
        | some (s, r) => some (e :: s, r)
    else
      match unesc q cs with
      | none => none
      | some (s, r) => some (c :: s, r)

/-- Decode a `repr`-quoted string (single- or double-quoted). -/
def parseQuoted : List Char → Option (List Char × List Char)
  | [] => none
  | c :: cs => if c = '\'' ∨ c = '"' then unesc c cs else none

/-- Require a literal prefix and drop it. -/
def expectP : List Char → List Char → Option (List Char)
  | [], s => some s
  | _ :: _, [] => none
  | p :: ps, c :: cs => if c = p then expectP ps cs else none

/-- Decode a non-empty `", "`-separated sequence of elements terminated by
`close` (the element decoder must leave the separator in place). -/
def parseElems (close : Char) (pe : List Char → Option (β × List Char)) :
    ℕ → List Char → Option (List β × List Char)
  | 0, _ => none
  | fuel + 1, s =>
    match pe s with
    | none => none
    | some (_, []) => none
    | some (b, c :: r2) =>
      if c = close then some ([b], r2)
      else if c = ',' then
        match r2 with
        | ' ' :: r3 =>
          match parseElems close pe fuel r3 with
          | none => none
          | some (bs, r) => some (b :: bs, r)
        | _ => none
      else none

/-- Decode a bracketed sequence: skip the opening character, then either the
closing character at once (empty sequence) or the elements. -/
def parseBracketed (close : Char) (pe : List Char → Option (β × List Char))
    (fuel : ℕ) : List Char → Option (List β × List Char)
  | [] => none
  | _ :: rest =>
    match rest with
    | [] => none
    | c :: r2 => if c = close then some ([], r2) else parseElems close pe fuel rest

/-- Characters that can occur inside a printed ratio value (so neither the
`", "` separator nor the closing brace of the dict). -/
def ratTokChar (c : Char) : Bool := !(c = ',' || c = '\x7d')

/-- Decode one `'key': value` entry of the uptimes dict, keeping the raw
characters of the value. -/
def parseRatioPair (s : List Char) : Option ((List Char × List Char) × List Char) :=
  match parseQuoted s with
  | none => none
  | some (k, r) =>
    match r with
    | ':' :: ' ' :: r2 => some ((k, r2.takeWhile ratTokChar), r2.dropWhile ratTokChar)
    | _ => none

/-- Decode one printed event dict into its three quoted fields. -/
def parseEvent (s : List Char) : Option ((List Char × List Char × List Char) × List Char) :=
  match s with
  | '\x7b' :: s1 =>
    match expectP "'title': ".data s1 with
    | none => none
    | some s2 =>
      match parseQuoted s2 with
      | none => none
      | some (t, s3) =>
        match expectP ", 'culprit': ".data s3 with
        | none => none
        | some s4 =>
          match parseQuoted s4 with
          | none => none
          | some (c, s5) =>
            match expectP ", 'count': ".data s5 with
            | none => none
            | some s6 =>
              match parseQuoted s6 with
              | none => none
              | some (n, s7) =>
                match s7 with
                | '\x7d' :: r => some ((t, c, n), r)
                | _ => none
  | _ => none

/-- A response sequence whose first page is 200/"ok" and reports
`pagination.total = 2` with a single monitor, and whose every follow-up
page fails with HTTP 500: the concrete input on which the pagination loop
of `get_service_ratios` never finishes. -/
def failPages : ℕ → UptimeResp := fun off =>
  if off = 0 then ⟨200, "ok", [⟨"db 1", 99⟩], 2⟩ else ⟨500, "", [], 0⟩

/-- A concrete Sentry response with ten issues (for instantiating the
truncation property). -/
def sentryTen : SentryResp :=
  ⟨200, [⟨"t1", "c1", "1"⟩, ⟨"t2", "c2", "2"⟩, ⟨"t3", "c3", "3"⟩, ⟨"t4", "c4", "4"⟩,
    ⟨"t5", "c5", "5"⟩, ⟨"t6", "c6", "6"⟩, ⟨"t7", "c7", "7"⟩, ⟨"t8", "c8", "8"⟩,
    ⟨"t9", "c9", "9"⟩, ⟨"t10", "c10", "10"⟩]⟩

/-- Combine a dict entry's previous list (if any) with the ratios a run of
monitors appends to it: apparatus for describing `lookupKey` after
`groupRatios`. -/
def optApp : Option (List ℚ) → List ℚ → Option (List ℚ)
  | none, [] => none
  | none, l => some l
  | some rs, l => some (rs ++ l)

/-- A two-monitor list served one monitor per page (for instantiating the
pagination property). -/
def twoPageL : List MonitorJson := [⟨"a 1", 1⟩, ⟨"b 1", 1⟩]

/-- The server for `twoPageL`: every offset answers 200/"ok" with the one
monitor at that offset and `pagination.total = 2`. -/
def twoPages : ℕ → UptimeResp := fun off => ⟨200, "ok", (twoPageL.drop off).take 1, 2⟩

/-- A cycle environment whose down-monitor request fails with HTTP 500 while
every other request succeeds (the ratio pages report zero monitors). -/
def envDownFail : CycleEnv :=
  ⟨fun _ => ⟨200, "ok", [], 0⟩, ⟨500, "", [], 0⟩, ⟨200, []⟩, ⟨200, []⟩, 800, 480⟩

/-- A cycle environment whose ratio request fails with HTTP 500 while every
other request succeeds (one monitor is down). -/
def envRatiosFail : CycleEnv :=
  ⟨fun _ => ⟨500, "", [], 0⟩, ⟨200, "ok", [⟨"db 1", 1⟩], 1⟩, ⟨200, []⟩, ⟨200, []⟩, 800, 480⟩

/-- A cycle environment in which every request succeeds. -/
def allOkEnv : CycleEnv :=
  ⟨fun _ => ⟨200, "ok", [], 0⟩, ⟨200, "ok", [⟨"db 1", 1⟩], 1⟩,
    ⟨200, [⟨"t", "c", "5"⟩]⟩, ⟨200, []⟩, 800, 480⟩

/-- The result of the first cycle on `allOkEnv` with a failing device (the
snapshot's serialization is 58 characters long, so the length-hash is 58). -/
def r58 : CycleResult :=
  ⟨some [], some ["db 1"], some [⟨"t", "c", "5"⟩], some [], 58, true, true, false, 58, 30, false⟩

/-- The result of the second cycle on `allOkEnv`, starting from
`old_data = 58`: the fingerprint is unchanged, so nothing is rendered. -/
def r58' : CycleResult :=
  ⟨some [], some ["db 1"], some [⟨"t", "c", "5"⟩], some [], 58, false, false, false, 58, 30, false⟩

/-! # Theorems -/

theorem take_clamp (L : List α) (a : ℕ) : L.take a = L.take (min a L.length) := by
  rcases le_total a L.length with h | h
  · rw [min_eq_left h]
  · rw [min_eq_right h, List.take_length, List.take_of_length_le h]

theorem addRatio_snd_ne_nil : ∀ (acc : List (String × List ℚ)) (name : String) (r : ℚ),
    (∀ p ∈ acc, p.2 ≠ ([] : List ℚ)) → ∀ p ∈ addRatio acc name r, p.2 ≠ [] := by
  intro acc
  induction acc with
  | nil =>
    intro name r _ p hp
    simp only [addRatio, List.mem_singleton] at hp
    subst hp; simp
  | cons q rest ih =>
    intro name r hacc p hp
    obtain ⟨k, rs⟩ := q
    simp only [addRatio] at hp
    by_cases hk : k = name
    · rw [if_pos hk] at hp
      rcases List.mem_cons.mp hp with h | h
      · subst h; simp
      · exact hacc _ (List.mem_cons_of_mem _ h)
    · rw [if_neg hk] at hp
      rcases List.mem_cons.mp hp with h | h
      · subst h; exact hacc _ (List.mem_cons_self _ _)
      · exact ih name r (fun p hp => hacc p (List.mem_cons_of_mem _ hp)) p h

theorem groupRatios_aux_ne_nil : ∀ (ms : List MonitorJson) (acc : List (String × List ℚ)),
    (∀ p ∈ acc, p.2 ≠ ([] : List ℚ)) →
    ∀ p ∈ ms.foldl
      (fun acc m => addRatio acc (firstToken m.friendly_name) m.custom_uptime_ratio) acc,
      p.2 ≠ [] := by
  intro ms
  induction ms with
  | nil => intro acc hacc p hp; exact hacc p (by simpa using hp)
  | cons m rest ih =>
    intro acc hacc p hp
    simp only [List.foldl_cons] at hp
    exact ih _ (addRatio_snd_ne_nil acc _ _ hacc) p hp

/-- C10: in `get_service_ratios`, the division `sum(ratios[r]) / len(ratios[r])`
never divides by zero: every entry of the intermediate `ratios` dict is a
non-empty list when the averaging loop runs, because each entry is created
with one element and only ever appended to. -/
theorem C10_mean_divisor_positive (ms : List MonitorJson) (k : String) (rs : List ℚ)
    (hmem : (k, rs) ∈ groupRatios ms) : 0 < rs.length := by
  have h := groupRatios_aux_ne_nil ms [] (by simp) (k, rs) hmem
  exact List.length_pos.mpr h

theorem C10_witness :
    ((("a", [(1 : ℚ)]) ∈ groupRatios [⟨"a b", 1⟩]) ∧ 0 < [(1 : ℚ)].length) :=
  ⟨by decide, C10_mean_divisor_positive [⟨"a b", 1⟩] "a" [1] (by decide)⟩

/-- C7: for every 200-status issues response, `get_sentry_events` returns
exactly the first 4 issues in the order the source returned them, each
mapped to its title, culprit and occurrence count. -/
theorem C7_sentry_first_four (r : SentryResp) (hs : r.status = 200) :
    ∃ evs, get_sentry_events r = some evs ∧
      evs.length = min 4 r.issues.length ∧
      ∀ i, (hi : i < evs.length) → (hi' : i < r.issues.length) →
        evs.get ⟨i, hi⟩ = ⟨(r.issues.get ⟨i, hi'⟩).title, (r.issues.get ⟨i, hi'⟩).culprit,
          (r.issues.get ⟨i, hi'⟩).count⟩ := by
  refine ⟨(r.issues.take 4).map fun e => ⟨e.title, e.culprit, e.count⟩, ?_, ?_, ?_⟩
  · simp [get_sentry_events, hs]
  · simp
  · intro i hi hi'
    simp [List.get_eq_getElem, List.getElem_map, List.getElem_take]

theorem C7_witness :
    sentryTen.status = 200 ∧
    ∃ evs, get_sentry_events sentryTen = some evs ∧
      evs.length = min 4 sentryTen.issues.length ∧
      ∀ i, (hi : i < evs.length) → (hi' : i < sentryTen.issues.length) →
        evs.get ⟨i, hi⟩ = ⟨(sentryTen.issues.get ⟨i, hi'⟩).title,
          (sentryTen.issues.get ⟨i, hi'⟩).culprit, (sentryTen.issues.get ⟨i, hi'⟩).count⟩ :=
  ⟨rfl, C7_sentry_first_four sentryTen rfl⟩

theorem paginate_failPages : ∀ (fuel : ℕ) (acc : List MonitorJson), acc.length = 1 →
    paginate failPages 2 fuel acc = none := by
  intro fuel
  induction fuel with
  | zero => intro acc h; simp [paginate, h]
  | succ fuel ih =>
    intro acc h
    have h1 : failPages acc.length = ⟨500, "", [], 0⟩ := by
      rw [h]; rfl
    simp only [paginate, h, h1]
    norm_num
    exact ih acc h

/-- C4: the pagination loop of `get_service_ratios` is not total: on a first
page that is 200/"ok" with `total = 2` and one monitor, followed by pages
that all fail with HTTP 500, the `while total > len(monitors)` loop never
extends `monitors` and never exits, so the fetch never completes no matter
how many iterations it is given. -/
theorem C4_pagination_diverges (fuel : ℕ) : get_service_ratios failPages fuel = none := by
  have h0 : failPages 0 = ⟨200, "ok", [⟨"db 1", 99⟩], 2⟩ := rfl
  simp only [get_service_ratios, h0]
  norm_num
  rw [paginate_failPages fuel [⟨"db 1", 99⟩] rfl]

theorem paginate_take (pages : ℕ → UptimeResp) (L : List MonitorJson) (sz : ℕ → ℕ)
    (hL : ∀ off, off < L.length → (pages off).status = 200 ∧ (pages off).stat = "ok" ∧
      0 < sz off ∧ (pages off).monitors = (L.drop off).take (sz off)) :
    ∀ (fuel n : ℕ), n ≤ L.length → L.length - n ≤ fuel →
      paginate pages L.length fuel (L.take n) = some L := by
  intro fuel
  induction fuel with
  | zero =>
    intro n hn hf
    have h : n = L.length := by omega
    subst h
    simp [paginate, List.take_length]
  | succ fuel ih =>
    intro n hn hf
    have hlen : (L.take n).length = n := by
      simp [List.length_take]; omega
    by_cases hlt : n < L.length
    · obtain ⟨hst, hstat, hsz, hmon⟩ := hL n hlt
      rw [paginate, hlen, if_pos (by omega), hmon, if_pos ⟨hst, hstat⟩]
      have hacc : L.take n ++ (L.drop n).take (sz n) = L.take (min (n + sz n) L.length) := by
        rw [← List.take_add, ← take_clamp]
      rw [hacc]
      exact ih (min (n + sz n) L.length) (min_le_right _ _) (by omega)
    · have h : n = L.length := by omega
      subst h
      rw [paginate, hlen]
      simp [List.take_length]

/-- C3: when every page at an offset below the reported total answers
200/"ok" with a non-empty slice of the server's monitor list at exactly
that offset, the pagination loop of `get_service_ratios` keeps requesting
the page at the count accumulated so far until the count reaches the
reported total, and ends with exactly the server's list — every fetched
monitor once, none duplicated, none dropped — and `get_service_ratios`
returns the service ratios of that full list. -/
theorem C3_pagination_accumulates (pages : ℕ → UptimeResp) (L : List MonitorJson)
    (sz : ℕ → ℕ) (fuel : ℕ)
    (hL : ∀ off, off < L.length → (pages off).status = 200 ∧ (pages off).stat = "ok" ∧
      0 < sz off ∧ (pages off).monitors = (L.drop off).take (sz off))
    (htot : (pages 0).total = L.length)
    (hfuel : L.length ≤ fuel)
    (hne : 0 < L.length) :
    paginate pages (pages 0).total fuel ((pages 0).monitors) = some L ∧
    get_service_ratios pages fuel = some (some (serviceRatios L)) := by
  obtain ⟨hst, hstat, hsz, hmon⟩ := hL 0 hne
  have hpag : paginate pages (pages 0).total fuel ((pages 0).monitors) = some L := by
    rw [htot, hmon, List.drop_zero, take_clamp]
    exact paginate_take pages L sz hL fuel _ (min_le_right _ _) (by omega)
  refine ⟨hpag, ?_⟩
  simp only [get_service_ratios, hst, hstat, and_self, if_true]
  rw [hpag]

theorem C3_witness :
    (∀ off, off < twoPageL.length → (twoPages off).status = 200 ∧
      (twoPages off).stat = "ok" ∧ 0 < 1 ∧
      (twoPages off).monitors = (twoPageL.drop off).take 1) ∧
    (twoPages 0).total = twoPageL.length ∧ twoPageL.length ≤ 2 ∧ 0 < twoPageL.length ∧
    paginate twoPages (twoPages 0).total 2 ((twoPages 0).monitors) = some twoPageL ∧
    get_service_ratios twoPages 2 = some (some (serviceRatios twoPageL)) :=
  ⟨fun _ _ => ⟨rfl, rfl, one_pos, rfl⟩, rfl, by decide, by decide,
    C3_pagination_accumulates twoPages twoPageL (fun _ => 1) 2
      (fun _ _ => ⟨rfl, rfl, one_pos, rfl⟩) rfl (by decide) (by decide)⟩

theorem optApp_nil (o : Option (List ℚ)) : optApp o [] = o := by
  cases o <;> simp [optApp]

theorem optApp_cons (o : Option (List ℚ)) (r : ℚ) (l : List ℚ) :
    optApp (optApp o [r]) l = optApp o (r :: l) := by
  cases o with
  | none =>
    cases l <;> simp [optApp]
  | some rs =>
    cases l <;> simp [optApp]

theorem lookupKey_addRatio : ∀ (acc : List (String × List ℚ)) (name t : String) (r : ℚ),
    lookupKey t (addRatio acc name r) =
      if name = t then optApp (lookupKey t acc) [r] else lookupKey t acc := by
  intro acc
  induction acc with
  | nil =>
    intro name t r
    by_cases h : name = t <;> simp [lookupKey, addRatio, optApp, h]
  | cons q rest ih =>
    intro name t r
    obtain ⟨k, rs⟩ := q
    simp only [addRatio]
    by_cases hk : k = name
    · subst hk
      by_cases ht : k = t
      · subst ht
        simp [lookupKey, optApp]
      · simp [lookupKey, ht, if_neg ht]
    · by_cases ht : k = t
      · subst ht
        have hn : ¬ name = k := fun h => hk h.symm
        rw [if_neg hk]
        simp [lookupKey, hn]
      · simp only [if_neg hk, lookupKey, if_neg ht]
        exact ih name t r

theorem lookupKey_groupRatios_aux :
    ∀ (ms : List MonitorJson) (acc : List (String × List ℚ)) (t : String),
    lookupKey t (ms.foldl
      (fun acc m => addRatio acc (firstToken m.friendly_name) m.custom_uptime_ratio) acc) =
      optApp (lookupKey t acc)
        ((ms.filter fun m => firstToken m.friendly_name = t).map (·.custom_uptime_ratio)) := by
  intro ms
  induction ms with
  | nil =>
    intro acc t
    simp [optApp_nil]
  | cons m rest ih =>
    intro acc t
    simp only [List.foldl_cons, List.filter_cons]
    by_cases hm : firstToken m.friendly_name = t
    · rw [ih, lookupKey_addRatio, if_pos hm, optApp_cons]
      simp [hm]
    · rw [ih, lookupKey_addRatio, if_neg hm]
      simp [hm]

theorem lookupKey_map_round :
    ∀ (l : List (String × List ℚ)) (t : String),
    lookupKey t (l.map fun p => (p.1, round2 (p.2.sum / (p.2.length : ℚ)))) =
      (lookupKey t l).map fun rs => round2 (rs.sum / (rs.length : ℚ)) := by
  intro l
  induction l with
  | nil => intro t; simp [lookupKey]
  | cons p rest ih =>
    intro t
    by_cases h : p.1 = t <;> simp [lookupKey, h, ih]

/-- C2: for every non-empty group of fetched monitors whose display names
share the same first space-separated token `t`, the entry of
`get_service_ratios`' result at `t` is the unweighted mean of the group's
30-day ratios, rounded to two decimal places (round-half-to-even). -/
theorem C2_service_ratio_is_rounded_mean (ms : List MonitorJson) (t : String)
    (hne : (ms.filter fun m => firstToken m.friendly_name = t) ≠ []) :
    lookupKey t (serviceRatios ms) =
      some (round2 (((ms.filter fun m => firstToken m.friendly_name = t).map
          (·.custom_uptime_ratio)).sum /
        ((ms.filter fun m => firstToken m.friendly_name = t).length : ℚ))) := by
  have h2 : lookupKey t (groupRatios ms) =
      optApp none ((ms.filter fun m => firstToken m.friendly_name = t).map
        (·.custom_uptime_ratio)) := by
    have h := lookupKey_groupRatios_aux ms [] t
    simpa [groupRatios, lookupKey] using h
  rw [serviceRatios, lookupKey_map_round, h2]
  rcases hl : (ms.filter fun m => firstToken m.friendly_name = t).map
      (·.custom_uptime_ratio) with _ | ⟨a, l⟩
  · exact absurd (List.map_eq_nil_iff.mp hl) hne
  · rw [hl]
    simp only [optApp]
    rw [← hl]
    simp [List.length_map]

/-- C2, counterexample to the claim's example: the names `api-1` and `api-2`
hold no space, so `split(" ")[0]` keeps them whole and `get_service_ratios`
produces two singleton services and no `"api"` entry at all. -/
theorem C2_hyphenated_example_refuted :
    lookupKey "api" (serviceRatios [⟨"api-1", 199/2⟩, ⟨"api-2", 197/2⟩]) = none ∧
    serviceRatios [⟨"api-1", 199/2⟩, ⟨"api-2", 197/2⟩] =
      [("api-1", 199/2), ("api-2", 197/2)] := by
  constructor
  · simp +decide [serviceRatios, groupRatios, addRatio, firstToken, splitSpace, lookupKey]
  · simp +decide [serviceRatios, groupRatios, addRatio, firstToken, splitSpace]
    norm_num [round2, roundHalfEven]

theorem C2_witness :
    (([⟨"api 1", 199/2⟩, ⟨"api 2", 197/2⟩] : List MonitorJson).filter
        (fun m => firstToken m.friendly_name = "api") ≠ []) ∧
    lookupKey "api" (serviceRatios [⟨"api 1", 199/2⟩, ⟨"api 2", 197/2⟩]) = some 99 := by
  refine ⟨by decide, ?_⟩
  rw [C2_service_ratio_is_rounded_mean _ "api" (by decide)]
  simp +decide [firstToken, splitSpace]
  norm_num [round2, roundHalfEven]

theorem uptimeLoop_no_lg (l : List (String × ℚ)) :
    ∀ (y x' y' : Int) (s : String), DrawOp.text x' y' s Font.lg ∉ uptimeLoop l y := by
  induction l with
  | nil => intro y x' y' s h; simp [uptimeLoop] at h
  | cons p rest ih =>
    intro y x' y' s h
    obtain ⟨serv, ratio⟩ := p
    simp only [uptimeLoop, List.mem_cons] at h
    rcases h with h | h | h
    · simp at h
    · simp at h
    · exact ih _ x' y' s h

theorem eventLoop_no_lg (evs : List SentryEvent) :
    ∀ (x y x' y' : Int) (s : String), DrawOp.text x' y' s Font.lg ∉ (eventLoop evs x y).1 := by
  induction evs with
  | nil => intro x y x' y' s h; simp [eventLoop] at h
  | cons e rest ih =>
    intro x y x' y' s h
    simp only [eventLoop, List.mem_cons] at h
    rcases h with h | h | h
    · simp at h
    · simp at h
    · exact ih x _ x' y' s h

/-- C8: with no monitors down, the rendered frame holds no "Down Monitors"
heading and the right column's Backend section starts at the top
(`y = 0`); with monitors down, the heading is drawn at the top of the right
column, the comma-joined names under it at `y = 50`, and the Backend
section is pushed down to `y = 80`. -/
theorem C8_down_section_layout (w h : Int) (uptimes : Option (List (String × ℚ)))
    (down : List String) (backend frontend : List SentryEvent) :
    (down = [] →
      (∀ x y : Int, DrawOp.text x y "!! Down Monitors !!" Font.lg ∉
        drawOps w h uptimes down backend frontend) ∧
      DrawOp.text 160 0 "Backend" Font.lg ∈ drawOps w h uptimes down backend frontend) ∧
    (down ≠ [] →
      DrawOp.text 160 0 "!! Down Monitors !!" Font.lg ∈
        drawOps w h uptimes down backend frontend ∧
      DrawOp.text 160 50 (String.intercalate ", " down) Font.sm ∈
        drawOps w h uptimes down backend frontend ∧
      DrawOp.text 160 80 "Backend" Font.lg ∈ drawOps w h uptimes down backend frontend) := by
  constructor
  · intro hd
    subst hd
    constructor
    · intro x y hmem
      simp +decide [drawOps, List.mem_append, List.mem_cons] at hmem
      rcases hmem with hmem | hmem | hmem
      · rcases hu : uptimes with _ | l
        · rw [hu] at hmem; simp at hmem
        · rw [hu] at hmem; exact uptimeLoop_no_lg l 50 x y _ hmem
      · exact eventLoop_no_lg backend 160 60 x y _ hmem
      · exact eventLoop_no_lg frontend 160 _ x y _ hmem
    · simp +decide [drawOps, List.mem_append, List.mem_cons]
  · intro hd
    have hpos : 0 < down.length := List.length_pos.mpr hd
    refine ⟨?_, ?_, ?_⟩ <;>
      simp +decide [drawOps, List.mem_append, List.mem_cons, hpos]

theorem C8_witness :
    (DrawOp.text 160 0 "!! Down Monitors !!" Font.lg ∈ drawOps 800 480 none ["db"] [] [] ∧
      DrawOp.text 160 50 (String.intercalate ", " ["db"]) Font.sm ∈
        drawOps 800 480 none ["db"] [] [] ∧
      DrawOp.text 160 80 "Backend" Font.lg ∈ drawOps 800 480 none ["db"] [] []) ∧
    DrawOp.text 160 0 "Backend" Font.lg ∈ drawOps 800 480 none [] [] [] :=
  ⟨(C8_down_section_layout 800 480 none ["db"] [] []).2 (by decide),
    ((C8_down_section_layout 800 480 none [] [] []).1 rfl).2⟩

/-- C1 (amended): on an individual fetch failure the snapshot field is set
to `None`, not to an empty collection.  A cycle whose service-ratio fetch
failed still renders a best-effort dashboard (`display` skips the uptime
section), but a cycle whose down-monitor fetch failed crashes on
`len(down)` inside `display`: the `TypeError` is caught only by `main`'s
`except Exception`, so the cycle is aborted with the 60-second backoff, no
frame is pushed and `old_data` keeps its previous value. -/
theorem C1_fetch_failure_handling (env : CycleEnv) (fuel : ℕ) (h : String → Int) (old : Int) :
    (∀ u, get_service_ratios env.pages fuel = some u →
      (env.downResp.status ≠ 200 ∨ env.downResp.stat ≠ "ok") →
      fingerprint h u none (get_sentry_events env.frontendResp)
        (get_sentry_events env.backendResp) ≠ old →
      (mainCycle h fuel env false old).map
          (fun r => (r.snapDown, r.displayCalled, r.driverDisplayInvoked, r.framePushed,
            r.aborted, r.sleepSecs)) =
        some (none, true, false, false, true, 60) ∧
      (mainCycle h fuel env false old).map (fun r => r.oldData) = some old) ∧
    (((env.pages 0).status ≠ 200 ∨ (env.pages 0).stat ≠ "ok") →
      env.downResp.status = 200 → env.downResp.stat = "ok" →
      env.frontendResp.status = 200 → env.backendResp.status = 200 →
      fingerprint h none (some (env.downResp.monitors.map (·.friendly_name)))
        (get_sentry_events env.frontendResp) (get_sentry_events env.backendResp) ≠ old →
      (mainCycle h fuel env false old).map
          (fun r => (r.snapUptimes, r.displayCalled, r.driverDisplayInvoked, r.framePushed,
            r.aborted, r.sleepSecs)) =
        some (none, true, true, true, false, 30)) := by
  constructor
  · intro u hgs hdown hne
    have hd : get_down_monitors env.downResp = none := by
      unfold get_down_monitors
      rw [if_neg (by tauto)]
    rw [mainCycle, hgs]
    simp only [hd]
    rw [if_pos hne]
    simp [display]
  · intro hup h1 h2 h3 h4 hne
    have hgs : get_service_ratios env.pages fuel = some none := by
      unfold get_service_ratios
      rw [if_neg (by tauto)]
    have hd : get_down_monitors env.downResp =
        some (env.downResp.monitors.map (·.friendly_name)) := by
      unfold get_down_monitors
      rw [if_pos ⟨h1, h2⟩]
    have hf : get_sentry_events env.frontendResp =
        some ((env.frontendResp.issues.take 4).map fun e => ⟨e.title, e.culprit, e.count⟩) := by
      unfold get_sentry_events
      rw [if_pos h3]
    have hb : get_sentry_events env.backendResp =
        some ((env.backendResp.issues.take 4).map fun e => ⟨e.title, e.culprit, e.count⟩) := by
      unfold get_sentry_events
      rw [if_pos h4]
    rw [mainCycle, hgs]
    simp only [hd]
    rw [if_pos hne]
    rw [hf, hb]
    simp [display]

/-- C1, counterexample: when the down-monitor fetch fails, the snapshot
field is `None` (not an empty sequence), and the cycle does not render a
best-effort dashboard: `display` crashes on `len(None)` and the loop takes
the 60-second error path with no frame pushed. -/
theorem C1_counterexample :
    get_down_monitors ⟨500, "", [], 0⟩ = none ∧
    get_down_monitors ⟨500, "", [], 0⟩ ≠ some [] ∧
    (mainCycle (fun s => (s.length : Int)) 1 envDownFail false (-1)).map
        (fun r => (r.snapDown, r.displayCalled, r.driverDisplayInvoked, r.framePushed,
          r.aborted, r.sleepSecs)) =
      some (none, true, false, false, true, 60) ∧
    (mainCycle (fun s => (s.length : Int)) 1 envDownFail false (-1)).map
        (fun r => r.oldData) = some (-1) :=
  ⟨rfl, by decide, by decide, by decide⟩

theorem C1_witness :
    (envDownFail.downResp.status ≠ 200 ∨ envDownFail.downResp.stat ≠ "ok") ∧
    ((envRatiosFail.pages 0).status ≠ 200 ∨ (envRatiosFail.pages 0).stat ≠ "ok") ∧
    ((mainCycle (fun s => (s.length : Int)) 1 envDownFail false (-1)).map
        (fun r => (r.snapDown, r.displayCalled, r.driverDisplayInvoked, r.framePushed,
          r.aborted, r.sleepSecs)) =
      some (none, true, false, false, true, 60) ∧
     (mainCycle (fun s => (s.length : Int)) 1 envDownFail false (-1)).map
        (fun r => r.oldData) = some (-1)) ∧
    (mainCycle (fun s => (s.length : Int)) 1 envRatiosFail false (-1)).map
        (fun r => (r.snapUptimes, r.displayCalled, r.driverDisplayInvoked, r.framePushed,
          r.aborted, r.sleepSecs)) =
      some (none, true, true, true, false, 30) :=
  ⟨by decide, by decide,
    (C1_fetch_failure_handling envDownFail 1 (fun s => (s.length : Int)) (-1)).1
      (some []) (by decide) (by decide) (by decide),
    (C1_fetch_failure_handling envRatiosFail 1 (fun s => (s.length : Int)) (-1)).2
      (by decide) rfl rfl rfl rfl (by decide)⟩

/-- C9, counterexample: in a cycle where pushing the frame raises `IOError`,
the error is swallowed inside `display`: the loop does not abort the cycle,
sleeps the normal 30 seconds (not the 60-second backoff) and still updates
`old_data` to the new fingerprint, treating the failed push as a successful
render. -/
theorem C9_counterexample :
    (mainCycle (fun s => (s.length : Int)) 1 allOkEnv true (-1)).map
        (fun r => (r.displayCalled, r.driverDisplayInvoked, r.framePushed, r.aborted,
          r.sleepSecs, decide (r.oldData = r.fingerprintVal))) =
      some (true, true, false, false, 30, true) := by decide

/-- C9 (amended): an `IOError` while pushing the frame is caught inside
`display` and only logged; the cycle is then treated as a successful
render — `old_data` is still updated to the new fingerprint and the loop
sleeps the normal 30-second interval — so the frame is not retried while
the data stays unchanged. -/
theorem C9_ioerror_swallowed (env : CycleEnv) (fuel : ℕ) (h : String → Int) (old : Int)
    (r : CycleResult) (hr : mainCycle h fuel env true old = some r)
    (hab : r.aborted = false) :
    r.framePushed = false ∧ r.sleepSecs = 30 ∧ r.oldData = r.fingerprintVal ∧
    r.driverDisplayInvoked = r.displayCalled := by
  rcases hgs : get_service_ratios env.pages fuel with _ | u
  · rw [mainCycle, hgs] at hr; cases hr
  · simp only [mainCycle, hgs] at hr
    by_cases hne : fingerprint h u (get_down_monitors env.downResp)
        (get_sentry_events env.frontendResp) (get_sentry_events env.backendResp) ≠ old
    · rw [if_pos hne] at hr
      rcases hd : get_down_monitors env.downResp with _ | d
      · rw [hd] at hr
        simp only [display] at hr
        cases hr
        cases hab
      · rcases hb : get_sentry_events env.backendResp with _ | be
        · rw [hd, hb] at hr
          simp only [display] at hr
          cases hr
          cases hab
        · rcases hf : get_sentry_events env.frontendResp with _ | fe
          · rw [hd, hb, hf] at hr
            simp only [display] at hr
            cases hr
            cases hab
          · rw [hd, hb, hf] at hr
            simp only [display] at hr
            cases hr
            simp
    · rw [if_neg hne] at hr
      cases hr
      simp

theorem C9_witness :
    mainCycle (fun s => (s.length : Int)) 1 allOkEnv true (-1) = some r58 ∧
    r58.aborted = false ∧
    (r58.framePushed = false ∧ r58.sleepSecs = 30 ∧ r58.oldData = r58.fingerprintVal ∧
      r58.driverDisplayInvoked = r58.displayCalled) :=
  ⟨by decide, rfl,
    C9_ioerror_swallowed allOkEnv 1 (fun s => (s.length : Int)) (-1) r58 (by decide) rfl⟩

/-- C6: the render step runs only when the cycle's fingerprint differs from
the previous one; the recorded fingerprint is exactly the hash of the built
snapshot's four fields; after every non-aborted cycle `old_data` equals
that cycle's fingerprint; and across two consecutive cycles built from
identical fetched data, the Display Driver's `display` is invoked at most
once — whether or not the device fails. -/
theorem C6_render_only_on_change (h : String → Int) (fuel : ℕ) (env : CycleEnv)
    (dev₁ dev₂ : Bool) (old : Int) (r₁ r₂ : CycleResult)
    (h₁ : mainCycle h fuel env dev₁ old = some r₁)
    (h₂ : mainCycle h fuel env dev₂ r₁.oldData = some r₂) :
    r₁.fingerprintVal =
      fingerprint h r₁.snapUptimes r₁.snapDown r₁.snapFrontend r₁.snapBackend ∧
    (r₁.displayCalled = true → r₁.fingerprintVal ≠ old) ∧
    (r₁.aborted = false → r₁.oldData = r₁.fingerprintVal) ∧
    (if r₁.driverDisplayInvoked then 1 else 0) + (if r₂.driverDisplayInvoked then 1 else 0)
      ≤ 1 := by
  rcases hgs : get_service_ratios env.pages fuel with _ | u
  · rw [mainCycle, hgs] at h₁
    cases h₁
  · simp only [mainCycle, hgs] at h₁ h₂
    by_cases hne : fingerprint h u (get_down_monitors env.downResp)
        (get_sentry_events env.frontendResp) (get_sentry_events env.backendResp) ≠ old
    · rw [if_pos hne] at h₁
      rcases hd : get_down_monitors env.downResp with _ | d
      · rw [hd] at h₁ h₂
        simp only [display] at h₁ h₂
        cases h₁
        rw [if_pos (by simpa [hd] using hne)] at h₂
        cases h₂
        refine ⟨rfl, ?_, ?_, ?_⟩
        · intro _; simpa [hd] using hne
        · intro hab; simp at hab
        · simp
      · rcases hb : get_sentry_events env.backendResp with _ | be
        · rw [hd, hb] at h₁ h₂
          simp only [display] at h₁ h₂
          cases h₁
          rw [if_pos (by simpa [hd, hb] using hne)] at h₂
          cases h₂
          refine ⟨rfl, ?_, ?_, ?_⟩
          · intro _; simpa [hd, hb] using hne
          · intro hab; simp at hab
          · simp
        · rcases hf : get_sentry_events env.frontendResp with _ | fe
          · rw [hd, hb, hf] at h₁ h₂
            simp only [display] at h₁ h₂
            cases h₁
            rw [if_pos (by simpa [hd, hb, hf] using hne)] at h₂
            cases h₂
            refine ⟨rfl, ?_, ?_, ?_⟩
            · intro _; simpa [hd, hb, hf] using hne
            · intro hab; simp at hab
            · simp
          · rw [hd, hb, hf] at h₁ h₂
            simp only [display] at h₁ h₂
            cases h₁
            rw [if_neg (by simp [hd, hb, hf])] at h₂
            cases h₂
            refine ⟨rfl, ?_, ?_, ?_⟩
            · intro _; simpa [hd, hb, hf] using hne
            · intro _; rfl
            · simp
    · rw [if_neg hne] at h₁
      cases h₁
      rw [if_neg (by simp)] at h₂
      cases h₂
      refine ⟨rfl, ?_, ?_, ?_⟩
      · intro hc; simp at hc
      · intro _; rfl
      · simp

/-! ## Injectivity of the `str(...)` model

These lemmas show the serialization hashed on line 167 distinguishes any two
snapshots that differ in exactly one field: the four field renderings are
injective and concatenation of equal-length frames cancels. -/

theorem digitChar_digit : ∀ d, d < 10 → (Nat.digitChar d).isDigit = true := by decide

theorem digitChar_inj : ∀ a, a < 10 → ∀ b, b < 10 → Nat.digitChar a = Nat.digitChar b →
    a = b := by decide

theorem natChars_eq (n : ℕ) :
    natChars n = if _h : n < 10 then [Nat.digitChar n]
      else natChars (n / 10) ++ [Nat.digitChar (n % 10)] := by
  rw [natChars]

theorem natChars_ne_nil (n : ℕ) : natChars n ≠ [] := by
  rw [natChars_eq]
  split <;> simp

theorem natChars_digits : ∀ (n : ℕ), ∀ c ∈ natChars n, c.isDigit = true := by
  intro n
  induction n using Nat.strong_induction_on with
  | _ n ih =>
    intro c hc
    rw [natChars_eq] at hc
    split at hc
    · next h =>
      simp only [List.mem_singleton] at hc
      subst hc
      exact digitChar_digit n h
    · next h =>
      rcases List.mem_append.mp hc with h1 | h1
      · exact ih (n / 10) (Nat.div_lt_self (by omega) (by omega)) c h1
      · simp only [List.mem_singleton] at h1
        subst h1
        exact digitChar_digit _ (Nat.mod_lt _ (by omega))

theorem natChars_inj : ∀ (a b : ℕ), natChars a = natChars b → a = b := by
  intro a
  induction a using Nat.strong_induction_on with
  | _ a ih =>
    intro b hab
    rw [natChars_eq a, natChars_eq b] at hab
    by_cases ha : a < 10 <;> by_cases hb : b < 10
    · rw [dif_pos ha, dif_pos hb] at hab
      simp only [List.cons.injEq] at hab
      exact digitChar_inj a ha b hb hab.1
    · rw [dif_pos ha, dif_neg hb] at hab
      have hl := congrArg List.length hab
      simp only [List.length_singleton, List.length_append] at hl
      have hz : (natChars (b / 10)).length ≠ 0 :=
        fun hh => natChars_ne_nil (b / 10) (List.length_eq_zero.mp hh)
      omega
    · rw [dif_neg ha, dif_pos hb] at hab
      have hl := congrArg List.length hab
      simp only [List.length_singleton, List.length_append] at hl
      have hz : (natChars (a / 10)).length ≠ 0 :=
        fun hh => natChars_ne_nil (a / 10) (List.length_eq_zero.mp hh)
      omega
    · rw [dif_neg ha, dif_neg hb] at hab
      have hlen : (natChars (a / 10)).length = (natChars (b / 10)).length := by
        have hl := congrArg List.length hab
        simp only [List.length_append, List.length_singleton] at hl
        omega
      obtain ⟨h3, h4⟩ := List.append_inj hab hlen
      have h5 : a / 10 = b / 10 :=
        ih (a / 10) (Nat.div_lt_self (by omega) (by omega)) (b / 10) h3
      have h6 : a % 10 = b % 10 := by
        simp only [List.cons.injEq] at h4
        exact digitChar_inj _ (Nat.mod_lt _ (by omega)) _ (Nat.mod_lt _ (by omega)) h4.1
      omega

theorem natChars_cons (n : ℕ) : ∃ c cs, natChars n = c :: cs ∧ c.isDigit = true := by
  rcases hn : natChars n with _ | ⟨c, cs⟩
  · exact absurd hn (natChars_ne_nil n)
  · exact ⟨c, cs, rfl, natChars_digits n c (hn ▸ List.mem_cons_self _ _)⟩

set_option maxRecDepth 4000 in
theorem fracChars_inj : ∀ a, a < 100 → ∀ b, b < 100 → fracChars a = fracChars b →
    a = b := by decide

set_option maxRecDepth 4000 in
theorem fracChars_digits : ∀ m, m < 100 → ∀ c ∈ fracChars m, c.isDigit = true := by decide

theorem takeWhile_app (p : Char → Bool) : ∀ (xs : List Char) (y : Char) (ys : List Char),
    (∀ c ∈ xs, p c = true) → p y = false →
    (xs ++ y :: ys).takeWhile p = xs ∧ (xs ++ y :: ys).dropWhile p = y :: ys := by
  intro xs
  induction xs with
  | nil =>
    intro y ys _ hy
    simp only [List.nil_append]
    exact ⟨by rw [List.takeWhile_cons_of_neg (by simp [hy])],
      by rw [List.dropWhile_cons_of_neg (by simp [hy])]⟩
  | cons x xs ih =>
    intro y ys hxs hy
    have hx : p x = true := hxs x (List.mem_cons_self _ _)
    have hih := ih y ys (fun c hc => hxs c (List.mem_cons_of_mem _ hc)) hy
    rw [List.cons_append]
    exact ⟨by rw [List.takeWhile_cons_of_pos hx, hih.1],
      by rw [List.dropWhile_cons_of_pos hx, hih.2]⟩

theorem sign_peel (p₁ p₂ : Prop) [Decidable p₁] [Decidable p₂] (c₁ c₂ : Char)
    (r₁ r₂ : List Char) (h1 : c₁.isDigit = true) (h2 : c₂.isDigit = true)
    (h : (if p₁ then ['-'] else []) ++ c₁ :: r₁ = (if p₂ then ['-'] else []) ++ c₂ :: r₂) :
    (p₁ ↔ p₂) ∧ c₁ :: r₁ = c₂ :: r₂ := by
  by_cases hp₁ : p₁ <;> by_cases hp₂ : p₂
  · rw [if_pos hp₁, if_pos hp₂] at h
    simp only [List.cons_append, List.cons.injEq, List.nil_append] at h
    exact ⟨iff_of_true hp₁ hp₂, by rw [h.2.1, h.2.2]⟩
  · rw [if_pos hp₁, if_neg hp₂] at h
    simp only [List.cons_append, List.nil_append, List.cons.injEq] at h
    rw [← h.1] at h2
    simp at h2
  · rw [if_neg hp₁, if_pos hp₂] at h
    simp only [List.cons_append, List.nil_append, List.cons.injEq] at h
    rw [h.1] at h1
    simp at h1
  · rw [if_neg hp₁, if_neg hp₂] at h
    simp only [List.nil_append] at h
    exact ⟨iff_of_false hp₁ hp₂, h⟩

theorem ratChars_dec (q : ℚ) (h : (100 * q).den = 1) :
    ratChars q = (if (100 * q).num < 0 then ['-'] else []) ++
      (natChars ((100 * q).num.natAbs / 100) ++
        '.' :: fracChars ((100 * q).num.natAbs % 100)) := by
  rw [ratChars, if_pos h, List.append_assoc]

theorem ratChars_frac (q : ℚ) (h : ¬ (100 * q).den = 1) :
    ratChars q = (if q.num < 0 then ['-'] else []) ++
      (natChars q.num.natAbs ++ '/' :: natChars q.den) := by
  rw [ratChars, if_neg h, List.append_assoc]

theorem dot_mem_dec (q : ℚ) (h : (100 * q).den = 1) : '.' ∈ ratChars q := by
  rw [ratChars_dec q h]
  exact List.mem_append.mpr (Or.inr (List.mem_append.mpr (Or.inr (List.mem_cons_self _ _))))

theorem dot_not_mem_frac (q : ℚ) (h : ¬ (100 * q).den = 1) : '.' ∉ ratChars q := by
  rw [ratChars_frac q h]
  intro hc
  rcases List.mem_append.mp hc with h1 | h1
  · split at h1 <;> simp at h1
  · rcases List.mem_append.mp h1 with h2 | h2
    · have := natChars_digits _ _ h2
      simp at this
    · rcases List.mem_cons.mp h2 with h3 | h3
      · simp at h3
      · have := natChars_digits _ _ h3
        simp at this

theorem ratChars_inj : ∀ (q₁ q₂ : ℚ), ratChars q₁ = ratChars q₂ → q₁ = q₂ := by
  intro q₁ q₂ h
  by_cases h₁ : (100 * q₁).den = 1 <;> by_cases h₂ : (100 * q₂).den = 1
  · rw [ratChars_dec q₁ h₁, ratChars_dec q₂ h₂] at h
    obtain ⟨c₁, cs₁, hc₁, hd₁⟩ := natChars_cons ((100 * q₁).num.natAbs / 100)
    obtain ⟨c₂, cs₂, hc₂, hd₂⟩ := natChars_cons ((100 * q₂).num.natAbs / 100)
    rw [hc₁, hc₂] at h
    simp only [List.cons_append] at h
    obtain ⟨hiff, htail⟩ := sign_peel _ _ c₁ c₂ _ _ hd₁ hd₂ h
    have htail' : natChars ((100 * q₁).num.natAbs / 100) ++
        '.' :: fracChars ((100 * q₁).num.natAbs % 100) =
        natChars ((100 * q₂).num.natAbs / 100) ++
        '.' :: fracChars ((100 * q₂).num.natAbs % 100) := by
      rw [hc₁, hc₂, List.cons_append, List.cons_append]
      exact htail
    have hone := takeWhile_app Char.isDigit (natChars ((100 * q₁).num.natAbs / 100)) '.'
      (fracChars ((100 * q₁).num.natAbs % 100)) (natChars_digits _) (by decide)
    have htwo := takeWhile_app Char.isDigit (natChars ((100 * q₂).num.natAbs / 100)) '.'
      (fracChars ((100 * q₂).num.natAbs % 100)) (natChars_digits _) (by decide)
    have hip : natChars ((100 * q₁).num.natAbs / 100) =
        natChars ((100 * q₂).num.natAbs / 100) := by
      rw [← hone.1, ← htwo.1, htail']
    have hfr : ('.' :: fracChars ((100 * q₁).num.natAbs % 100) : List Char) =
        '.' :: fracChars ((100 * q₂).num.natAbs % 100) := by
      rw [← hone.2, ← htwo.2, htail']
    injection hfr with _ hfr2
    have hip' := natChars_inj _ _ hip
    have hm : (100 * q₁).num.natAbs % 100 = (100 * q₂).num.natAbs % 100 :=
      fracChars_inj _ (Nat.mod_lt _ (by omega)) _ (Nat.mod_lt _ (by omega)) hfr2
    have hnum : (100 * q₁).num = (100 * q₂).num := by
      have e1 : (100 * q₁).num.natAbs = 100 * ((100 * q₁).num.natAbs / 100) +
          (100 * q₁).num.natAbs % 100 := (Nat.div_add_mod _ _).symm
      have e2 : (100 * q₂).num.natAbs = 100 * ((100 * q₂).num.natAbs / 100) +
          (100 * q₂).num.natAbs % 100 := (Nat.div_add_mod _ _).symm
      omega
    have h100 : (100 : ℚ) * q₁ = 100 * q₂ := by
      rw [← Rat.coe_int_num_of_den_eq_one h₁, ← Rat.coe_int_num_of_den_eq_one h₂, hnum]
    exact mul_left_cancel₀ (by norm_num : (100 : ℚ) ≠ 0) h100
  · exact absurd (h ▸ dot_mem_dec q₁ h₁) (dot_not_mem_frac q₂ h₂)
  · exact absurd (h.symm ▸ dot_mem_dec q₂ h₂) (dot_not_mem_frac q₁ h₁)
  · rw [ratChars_frac q₁ h₁, ratChars_frac q₂ h₂] at h
    obtain ⟨c₁, cs₁, hc₁, hd₁⟩ := natChars_cons q₁.num.natAbs
    obtain ⟨c₂, cs₂, hc₂, hd₂⟩ := natChars_cons q₂.num.natAbs
    rw [hc₁, hc₂] at h
    simp only [List.cons_append] at h
    obtain ⟨hiff, htail⟩ := sign_peel _ _ c₁ c₂ _ _ hd₁ hd₂ h
    have htail' : natChars q₁.num.natAbs ++ '/' :: natChars q₁.den =
        natChars q₂.num.natAbs ++ '/' :: natChars q₂.den := by
      rw [hc₁, hc₂, List.cons_append, List.cons_append]
      exact htail
    have hone := takeWhile_app Char.isDigit (natChars q₁.num.natAbs) '/'
      (natChars q₁.den) (natChars_digits _) (by decide)
    have htwo := takeWhile_app Char.isDigit (natChars q₂.num.natAbs) '/'
      (natChars q₂.den) (natChars_digits _) (by decide)
    have hip : natChars q₁.num.natAbs = natChars q₂.num.natAbs := by
      rw [← hone.1, ← htwo.1, htail']
    have hfr : ('/' :: natChars q₁.den : List Char) = '/' :: natChars q₂.den := by
      rw [← hone.2, ← htwo.2, htail']
    injection hfr with _ hfr2
    have habs := natChars_inj _ _ hip
    have hden := natChars_inj _ _ hfr2
    have hnum : q₁.num = q₂.num := by omega
    exact Rat.ext hnum hden

theorem unesc_escQ : ∀ (s rest : List Char),
    unesc '\'' (escList escQ s ++ '\'' :: rest) = some (s, rest) := by
  intro s
  induction s with
  | nil =>
    intro rest
    show unesc '\'' ('\'' :: rest) = some ([], rest)
    rw [unesc.eq_def]
    simp
  | cons c s ih =>
    intro rest
    by_cases hb : c = '\\'
    · subst hb
      show unesc '\'' ('\\' :: '\\' :: (escList escQ s ++ '\'' :: rest)) =
        some ('\\' :: s, rest)
      rw [unesc.eq_def]
      simp +decide [ih rest]
    · by_cases hq : c = '\''
      · subst hq
        show unesc '\'' ('\\' :: '\'' :: (escList escQ s ++ '\'' :: rest)) =
          some ('\'' :: s, rest)
        rw [unesc.eq_def]
        simp +decide [ih rest]
      · simp only [escList, escQ, if_neg hb, if_neg hq, List.singleton_append,
          List.cons_append]
        rw [unesc.eq_def]
        simp [hq, hb, ih rest]

theorem unesc_escD : ∀ (s rest : List Char), '"' ∉ s →
    unesc '"' (escList escD s ++ '"' :: rest) = some (s, rest) := by
  intro s
  induction s with
  | nil =>
    intro rest _
    show unesc '"' ('"' :: rest) = some ([], rest)
    rw [unesc.eq_def]
    simp
  | cons c s ih =>
    intro rest hmem
    have hc : ¬ c = '"' := fun hh => hmem (hh ▸ List.mem_cons_self _ _)
    have hs : '"' ∉ s := fun hh => hmem (List.mem_cons_of_mem _ hh)
    by_cases hb : c = '\\'
    · subst hb
      show unesc '"' ('\\' :: '\\' :: (escList escD s ++ '"' :: rest)) =
        some ('\\' :: s, rest)
      rw [unesc.eq_def]
      simp +decide [ih rest hs]
    · simp only [escList, escD, if_neg hb, List.singleton_append, List.cons_append]
      rw [unesc.eq_def]
      simp [hc, hb, ih rest hs]

theorem parseQuoted_pyRepr : ∀ (s rest : List Char),
    parseQuoted (pyReprChars s ++ rest) = some (s, rest) := by
  intro s rest
  rw [pyReprChars]
  split
  · next hcond =>
    simp only [List.cons_append, List.append_assoc, List.singleton_append]
    simp only [parseQuoted, if_pos (Or.inr rfl)]
    exact unesc_escD s rest hcond.2
  · next _ =>
    simp only [List.cons_append, List.append_assoc, List.singleton_append]
    simp only [parseQuoted, if_pos (Or.inl rfl)]
    exact unesc_escQ s rest

theorem expectP_pref : ∀ (p s : List Char), expectP p (p ++ s) = some s := by
  intro p
  induction p with
  | nil =>
    intro s
    simp [expectP]
  | cons c p ih =>
    intro s
    simp only [List.cons_append, expectP, if_pos rfl]
    exact ih s

theorem parseElems_roundtrip {α β : Type} (close : Char)
    (pe : List Char → Option (β × List Char)) (enc : α → List Char) (abs : α → β)
    (hcc : ¬ (',' : Char) = close)
    (HE : ∀ (a : α) (r : List Char), r.head? = some close ∨ r.head? = some ',' →
      pe (enc a ++ r) = some (abs a, r)) :
    ∀ (l : List α) (rest : List Char) (fuel : ℕ), l ≠ [] → l.length ≤ fuel →
      parseElems close pe fuel (commaSepEnc enc l ++ close :: rest) =
        some (l.map abs, rest) := by
  intro l
  induction l with
  | nil =>
    intro rest fuel hne _
    exact absurd rfl hne
  | cons a l ih =>
    intro rest fuel _ hfuel
    rcases fuel with _ | fuel
    · simp at hfuel
    rcases l with _ | ⟨b, l'⟩
    · show parseElems close pe (fuel + 1) (enc a ++ close :: rest) = some ([abs a], rest)
      have hpe := HE a (close :: rest) (Or.inl rfl)
      simp [parseElems, hpe]
    · have hstep : commaSepEnc enc (a :: b :: l') ++ close :: rest =
          enc a ++ (',' :: ' ' :: (commaSepEnc enc (b :: l') ++ close :: rest)) := by
        show (enc a ++ ',' :: ' ' :: commaSepEnc enc (b :: l')) ++ close :: rest = _
        simp [List.append_assoc]
      rw [hstep]
      have hpe := HE a (',' :: ' ' :: (commaSepEnc enc (b :: l') ++ close :: rest))
        (Or.inr rfl)
      have hih := ih rest fuel (by simp) (by simp at hfuel ⊢; omega)
      simp [parseElems, hpe, hcc, hih]

theorem parseBracketed_roundtrip {α β : Type} (close : Char)
    (pe : List Char → Option (β × List Char)) (enc : α → List Char) (abs : α → β)
    (hcc : ¬ (',' : Char) = close)
    (HE : ∀ (a : α) (r : List Char), r.head? = some close ∨ r.head? = some ',' →
      pe (enc a ++ r) = some (abs a, r))
    (Hhead : ∀ a : α, ∃ c cs, enc a = c :: cs ∧ ¬ c = close) :
    ∀ (opench : Char) (l : List α) (rest : List Char) (fuel : ℕ), l.length ≤ fuel →
      parseBracketed close pe fuel (opench :: (commaSepEnc enc l ++ close :: rest)) =
        some (l.map abs, rest) := by
  intro opench l rest fuel hfuel
  rcases l with _ | ⟨a, l⟩
  · show parseBracketed close pe fuel (opench :: close :: rest) = some ([], rest)
    simp [parseBracketed]
  · obtain ⟨c, cs, hca, hcc2⟩ := Hhead a
    obtain ⟨T, hT⟩ : ∃ T, commaSepEnc enc (a :: l) ++ close :: rest = c :: T := by
      rcases l with _ | ⟨b, l'⟩
      · refine ⟨cs ++ close :: rest, ?_⟩
        show enc a ++ close :: rest = _
        rw [hca]
        simp
      · refine ⟨cs ++ (',' :: ' ' :: commaSepEnc enc (b :: l') ++ close :: rest), ?_⟩
        show (enc a ++ ',' :: ' ' :: commaSepEnc enc (b :: l')) ++ close :: rest = _
        rw [hca]
        simp
    rw [hT]
    have hred : parseBracketed close pe fuel (opench :: c :: T) =
        parseElems close pe fuel (c :: T) := by
      simp [parseBracketed, hcc2]
    rw [hred, ← hT]
    exact parseElems_roundtrip close pe enc abs hcc HE (a :: l) rest fuel (by simp) hfuel

theorem pyReprChars_head (l : List Char) :
    ∃ c cs, pyReprChars l = c :: cs ∧ (c = '\'' ∨ c = '"') := by
  rw [pyReprChars]
  split
  · exact ⟨'"', _, rfl, Or.inr rfl⟩
  · exact ⟨'\'', _, rfl, Or.inl rfl⟩

theorem ratChars_charset (q : ℚ) :
    ∀ c ∈ ratChars q, c.isDigit = true ∨ c = '-' ∨ c = '.' ∨ c = '/' := by
  intro c hc
  by_cases h : (100 * q).den = 1
  · rw [ratChars_dec q h] at hc
    rcases List.mem_append.mp hc with h1 | h1
    · right; left
      split at h1
      · simpa using h1
      · simp at h1
    · rcases List.mem_append.mp h1 with h2 | h2
      · exact Or.inl (natChars_digits _ _ h2)
      · rcases List.mem_cons.mp h2 with h3 | h3
        · subst h3
          right; right; left; rfl
        · exact Or.inl (fracChars_digits _ (Nat.mod_lt _ (by omega)) _ h3)
  · rw [ratChars_frac q h] at hc
    rcases List.mem_append.mp hc with h1 | h1
    · right; left
      split at h1
      · simpa using h1
      · simp at h1
    · rcases List.mem_append.mp h1 with h2 | h2
      · exact Or.inl (natChars_digits _ _ h2)
      · rcases List.mem_cons.mp h2 with h3 | h3
        · subst h3
          right; right; right; rfl
        · exact Or.inl (natChars_digits _ _ h3)

theorem ratChars_tok (q : ℚ) : ∀ c ∈ ratChars q, ratTokChar c = true := by
  intro c hc
  rcases ratChars_charset q c hc with h | h | h | h
  · rw [ratTokChar]
    by_cases h1 : c = ','
    · rw [h1] at h
      exact absurd h (by decide)
    · by_cases h2 : c = '\x7d'
      · rw [h2] at h
        exact absurd h (by decide)
      · simp [h1, h2]
  · subst h; rfl
  · subst h; rfl
  · subst h; rfl

theorem parseRatioPair_enc (p : String × ℚ) (r : List Char)
    (hr : r.head? = some '\x7d' ∨ r.head? = some ',') :
    parseRatioPair (ratioPairEnc p ++ r) = some ((p.1.data, ratChars p.2), r) := by
  obtain ⟨k, v⟩ := p
  show parseRatioPair ((pyReprChars k.data ++ ':' :: ' ' :: ratChars v) ++ r) = _
  rw [List.append_assoc]
  rcases r with _ | ⟨c, r'⟩
  · rcases hr with h | h <;> simp at h
  · have hc : ratTokChar c = false := by
      rcases hr with h | h <;> (simp at h; subst h; rfl)
    have hsplit := takeWhile_app ratTokChar (ratChars v) c r' (ratChars_tok v) hc
    simp [parseRatioPair, parseQuoted_pyRepr k.data, hsplit.1, hsplit.2]

theorem parseEvent_enc (e : SentryEvent) (r : List Char) :
    parseEvent (pyStrEvent e ++ r) =
      some ((e.title.data, e.culprit.data, e.count.data), r) := by
  obtain ⟨t, c, n⟩ := e
  show parseEvent ('\x7b' :: (("'title': ".data ++ pyReprChars t.data ++
    ", 'culprit': ".data ++ pyReprChars c.data ++
    ", 'count': ".data ++ pyReprChars n.data ++ ['\x7d']) ++ r)) = _
  simp only [List.append_assoc, List.cons_append, List.singleton_append]
  simp [parseEvent, expectP, parseQuoted_pyRepr]

theorem pyStrStrList_inj : ∀ (d₁ d₂ : Option (List String)),
    pyStrStrList d₁ = pyStrStrList d₂ → d₁ = d₂ := by
  have hHE : ∀ (a : String) (r : List Char), r.head? = some ']' ∨ r.head? = some ',' →
      parseQuoted (pyReprChars a.data ++ r) = some (a.data, r) :=
    fun a r _ => parseQuoted_pyRepr a.data r
  have hHead : ∀ a : String, ∃ c cs, pyReprChars a.data = c :: cs ∧ ¬ c = ']' := by
    intro a
    obtain ⟨c, cs, hc, hq⟩ := pyReprChars_head a.data
    refine ⟨c, cs, hc, ?_⟩
    rcases hq with h | h <;> subst h <;> decide
  intro d₁ d₂ h
  rcases d₁ with _ | l₁ <;> rcases d₂ with _ | l₂
  · rfl
  · rw [pyStrStrList, pyStrStrList,
      show "None".data = ['N', 'o', 'n', 'e'] from rfl] at h
    simp at h
  · rw [pyStrStrList, pyStrStrList,
      show "None".data = ['N', 'o', 'n', 'e'] from rfl] at h
    simp at h
  · rw [pyStrStrList, pyStrStrList] at h
    have h1 := parseBracketed_roundtrip ']' parseQuoted
      (fun s : String => pyReprChars s.data) String.data (by decide) hHE hHead
      '[' l₁ [] (l₁.length + l₂.length) (by omega)
    have h2 := parseBracketed_roundtrip ']' parseQuoted
      (fun s : String => pyReprChars s.data) String.data (by decide) hHE hHead
      '[' l₂ [] (l₁.length + l₂.length) (by omega)
    rw [h, h2] at h1
    simp only [Option.some.injEq, Prod.mk.injEq] at h1
    exact congrArg some
      (List.map_injective_iff.mpr (fun a b hab => String.ext hab) h1.1.symm)

theorem pyStrEvents_inj : ∀ (e₁ e₂ : Option (List SentryEvent)),
    pyStrEvents e₁ = pyStrEvents e₂ → e₁ = e₂ := by
  have hHE : ∀ (a : SentryEvent) (r : List Char),
      r.head? = some ']' ∨ r.head? = some ',' →
      parseEvent (pyStrEvent a ++ r) =
        some ((a.title.data, a.culprit.data, a.count.data), r) :=
    fun a r _ => parseEvent_enc a r
  have hHead : ∀ a : SentryEvent, ∃ c cs, pyStrEvent a = c :: cs ∧ ¬ c = ']' :=
    fun a => ⟨'\x7b', _, rfl, by decide⟩
  have habs : Function.Injective
      (fun e : SentryEvent => (e.title.data, e.culprit.data, e.count.data)) := by
    intro a b hab
    obtain ⟨t₁, c₁, n₁⟩ := a
    obtain ⟨t₂, c₂, n₂⟩ := b
    simp only [Prod.mk.injEq] at hab
    simp only [SentryEvent.mk.injEq]
    exact ⟨String.ext hab.1, String.ext hab.2.1, String.ext hab.2.2⟩
  intro e₁ e₂ h
  rcases e₁ with _ | l₁ <;> rcases e₂ with _ | l₂
  · rfl
  · rw [pyStrEvents, pyStrEvents,
      show "None".data = ['N', 'o', 'n', 'e'] from rfl] at h
    simp at h
  · rw [pyStrEvents, pyStrEvents,
      show "None".data = ['N', 'o', 'n', 'e'] from rfl] at h
    simp at h
  · rw [pyStrEvents, pyStrEvents] at h
    have h1 := parseBracketed_roundtrip ']' parseEvent pyStrEvent
      (fun e => (e.title.data, e.culprit.data, e.count.data)) (by decide) hHE hHead
      '[' l₁ [] (l₁.length + l₂.length) (by omega)
    have h2 := parseBracketed_roundtrip ']' parseEvent pyStrEvent
      (fun e => (e.title.data, e.culprit.data, e.count.data)) (by decide) hHE hHead
      '[' l₂ [] (l₁.length + l₂.length) (by omega)
    rw [h, h2] at h1
    simp only [Option.some.injEq, Prod.mk.injEq] at h1
    exact congrArg some (List.map_injective_iff.mpr habs h1.1.symm)

theorem pyStrRatios_inj : ∀ (u₁ u₂ : Option (List (String × ℚ))),
    pyStrRatios u₁ = pyStrRatios u₂ → u₁ = u₂ := by
  have hHE : ∀ (a : String × ℚ) (r : List Char),
      r.head? = some '\x7d' ∨ r.head? = some ',' →
      parseRatioPair (ratioPairEnc a ++ r) = some ((a.1.data, ratChars a.2), r) :=
    fun a r hr => parseRatioPair_enc a r hr
  have hHead : ∀ a : String × ℚ, ∃ c cs, ratioPairEnc a = c :: cs ∧ ¬ c = '\x7d' := by
    intro p
    obtain ⟨c, cs, hc, hq⟩ := pyReprChars_head p.1.data
    refine ⟨c, cs ++ ':' :: ' ' :: ratChars p.2, ?_, ?_⟩
    · show pyReprChars p.1.data ++ ':' :: ' ' :: ratChars p.2 = _
      rw [hc]
      rfl
    · rcases hq with h | h <;> subst h <;> decide
  have habs : Function.Injective
      (fun p : String × ℚ => (p.1.data, ratChars p.2)) := by
    intro a b hab
    simp only [Prod.mk.injEq] at hab
    exact Prod.ext (String.ext hab.1) (ratChars_inj _ _ hab.2)
  intro u₁ u₂ h
  rcases u₁ with _ | l₁ <;> rcases u₂ with _ | l₂
  · rfl
  · rw [pyStrRatios, pyStrRatios,
      show "None".data = ['N', 'o', 'n', 'e'] from rfl] at h
    simp at h
  · rw [pyStrRatios, pyStrRatios,
      show "None".data = ['N', 'o', 'n', 'e'] from rfl] at h
    simp at h
  · rw [pyStrRatios, pyStrRatios] at h
    have h1 := parseBracketed_roundtrip '\x7d' parseRatioPair ratioPairEnc
      (fun p => (p.1.data, ratChars p.2)) (by decide) hHE hHead
      '\x7b' l₁ [] (l₁.length + l₂.length) (by omega)
    have h2 := parseBracketed_roundtrip '\x7d' parseRatioPair ratioPairEnc
      (fun p => (p.1.data, ratChars p.2)) (by decide) hHE hHead
      '\x7b' l₂ [] (l₁.length + l₂.length) (by omega)
    rw [h, h2] at h1
    simp only [Option.some.injEq, Prod.mk.injEq] at h1
    exact congrArg some (List.map_injective_iff.mpr habs h1.1.symm)

theorem serializeSnapshot_one_field_ne
    (u₁ u₂ : Option (List (String × ℚ))) (d₁ d₂ : Option (List String))
    (f₁ f₂ b₁ b₂ : Option (List SentryEvent))
    (hdiff :
      (u₁ ≠ u₂ ∧ d₁ = d₂ ∧ f₁ = f₂ ∧ b₁ = b₂) ∨
      (u₁ = u₂ ∧ d₁ ≠ d₂ ∧ f₁ = f₂ ∧ b₁ = b₂) ∨
      (u₁ = u₂ ∧ d₁ = d₂ ∧ f₁ ≠ f₂ ∧ b₁ = b₂) ∨
      (u₁ = u₂ ∧ d₁ = d₂ ∧ f₁ = f₂ ∧ b₁ ≠ b₂)) :
    serializeSnapshot u₁ d₁ f₁ b₁ ≠ serializeSnapshot u₂ d₂ f₂ b₂ := by
  intro h
  have hl : pyStrRatios u₁ ++ pyStrStrList d₁ ++ pyStrEvents f₁ ++ pyStrEvents b₁ =
      pyStrRatios u₂ ++ pyStrStrList d₂ ++ pyStrEvents f₂ ++ pyStrEvents b₂ :=
    congrArg String.data h
  rcases hdiff with ⟨hu, hd, hf, hb⟩ | ⟨hu, hd, hf, hb⟩ | ⟨hu, hd, hf, hb⟩ |
    ⟨hu, hd, hf, hb⟩
  · subst hd; subst hf; subst hb
    exact hu (pyStrRatios_inj _ _ (List.append_cancel_right
      (List.append_cancel_right (List.append_cancel_right hl))))
  · subst hu; subst hf; subst hb
    exact hd (pyStrStrList_inj _ _ (List.append_cancel_left
      (List.append_cancel_right (List.append_cancel_right hl))))
  · subst hu; subst hd; subst hb
    exact hf (pyStrEvents_inj _ _ (List.append_cancel_left
      (List.append_cancel_right hl)))
  · subst hu; subst hd; subst hf
    exact hb (pyStrEvents_inj _ _ (List.append_cancel_left hl))

/-- C5 (amended): the fingerprint hashed on run.py line 167 is a pure
function of the four snapshot fields — `fingerprint` is by construction the
hash of the fields' serialization, so identical fields always give the same
fingerprint — and two snapshots that differ in exactly one field always
serialize to *different* strings, so their fingerprints differ whenever the
64-bit `hash` does not collide on the two distinct serializations (which
pigeonhole makes unavoidable for some pairs; see the counterexample). -/
theorem C5_fingerprint_change_detection (h : String → Int)
    (u₁ u₂ : Option (List (String × ℚ))) (d₁ d₂ : Option (List String))
    (f₁ f₂ b₁ b₂ : Option (List SentryEvent))
    (hdiff :
      (u₁ ≠ u₂ ∧ d₁ = d₂ ∧ f₁ = f₂ ∧ b₁ = b₂) ∨
      (u₁ = u₂ ∧ d₁ ≠ d₂ ∧ f₁ = f₂ ∧ b₁ = b₂) ∨
      (u₁ = u₂ ∧ d₁ = d₂ ∧ f₁ ≠ f₂ ∧ b₁ = b₂) ∨
      (u₁ = u₂ ∧ d₁ = d₂ ∧ f₁ = f₂ ∧ b₁ ≠ b₂)) :
    serializeSnapshot u₁ d₁ f₁ b₁ ≠ serializeSnapshot u₂ d₂ f₂ b₂ ∧
    (h (serializeSnapshot u₁ d₁ f₁ b₁) ≠ h (serializeSnapshot u₂ d₂ f₂ b₂) →
      fingerprint h u₁ d₁ f₁ b₁ ≠ fingerprint h u₂ d₂ f₂ b₂) ∧
    (∀ (u : Option (List (String × ℚ))) (d : Option (List String))
      (f b : Option (List SentryEvent)),
      fingerprint h u d f b = h (serializeSnapshot u d f b)) :=
  ⟨serializeSnapshot_one_field_ne u₁ u₂ d₁ d₂ f₁ f₂ b₁ b₂ hdiff,
    fun hh => hh, fun _ _ _ _ => rfl⟩

theorem C5_witness :
    ((none : Option (List (String × ℚ))) = none ∧
      (some ["a"] : Option (List String)) ≠ some ["b"] ∧
      (none : Option (List SentryEvent)) = none ∧
      (none : Option (List SentryEvent)) = none) ∧
    serializeSnapshot none (some ["a"]) none none ≠
      serializeSnapshot none (some ["b"]) none none :=
  ⟨⟨rfl, by decide, rfl, rfl⟩,
    (C5_fingerprint_change_detection (fun s => (s.length : Int)) none none (some ["a"])
      (some ["b"]) none none none none (Or.inr (Or.inl ⟨rfl, by decide, rfl, rfl⟩))).1⟩

/-- C5, counterexample: the claim "changing any one field changes the
fingerprint" is false for every 64-bit-valued hash function (Python's
seeded `hash` included, whatever its seed): infinitely many down-monitor
lists map into the finite 64-bit range, so some two distinct lists — the
other three fields held identical — receive the same fingerprint. -/
theorem C5_counterexample :
    ¬ ∃ hf : String → Fin (2 ^ 64), ∀ d₁ d₂ : List String, d₁ ≠ d₂ →
      fingerprint (fun s => ((hf s : ℕ) : Int)) none (some d₁) none none ≠
      fingerprint (fun s => ((hf s : ℕ) : Int)) none (some d₂) none none := by
  rintro ⟨hf, H⟩
  obtain ⟨a, b, hab, heq⟩ := Finite.exists_ne_map_eq_of_infinite
    (fun n : ℕ => hf (serializeSnapshot none (some (List.replicate n "a")) none none))
  exact H (List.replicate a "a") (List.replicate b "a")
    (fun hrep => hab (by simpa using congrArg List.length hrep))
    (congrArg (fun x : Fin (2 ^ 64) => ((x : ℕ) : Int)) heq)

theorem C6_witness :
    mainCycle (fun s => (s.length : Int)) 1 allOkEnv true (-1) = some r58 ∧
    mainCycle (fun s => (s.length : Int)) 1 allOkEnv true r58.oldData = some r58' ∧
    (r58.fingerprintVal =
        fingerprint (fun s => (s.length : Int)) r58.snapUptimes r58.snapDown
          r58.snapFrontend r58.snapBackend ∧
      (r58.displayCalled = true → r58.fingerprintVal ≠ -1) ∧
      (r58.aborted = false → r58.oldData = r58.fingerprintVal) ∧
      (if r58.driverDisplayInvoked then 1 else 0) + (if r58'.driverDisplayInvoked then 1 else 0)
        ≤ 1) :=
  ⟨by decide, by decide,
    C6_render_only_on_change (fun s => (s.length : Int)) 1 allOkEnv true true (-1) r58 r58'
      (by decide) (by decide)⟩

end RunPy
